import Mathlib

/-!
# ConnectorPlatform Go SDK: proxy executor and connection directory client

A shallow embedding of `sdk/go/connector/base_connector.go` and
`sdk/go/client/client.go`.

* The network is a collaborator: `HTTPClient σ` carries a state-passing
  function from the platform state and one outbound request to a transport
  error or a response.  The methods of `*http.Client` are written out over it
  as `net/http` has them: `Post` and `Get` build the request first and send
  nothing when `http.NewRequest` rejects the URL, and `Do` follows redirect
  answers.  Every request that is sent is recorded in a log.
* `encoding/json` is a library: the bytes of a body are carried together with
  what the library's scanner makes of them (`Scan`), and the reflection-driven
  decoding into the structs declared in the source is written out over JSON
  values, following the struct tags of the source.
* Go's `(value, error)` results are `Except GoError value`.
-/

set_option exponentiation.threshold 2000

namespace ConnectorPlatform

/-! ## Go errors -/

/-- A Go `error` value, as the source builds them. -/
inductive GoError where
  /-- An error value made by a library (`net/http`, `encoding/json`, `io`). -/
  | lib (text : String)
  /-- The value of `fmt.Errorf(head ++ "%s", arg)`. -/
  | errorf (head : String) (arg : String)
  /-- The value of `fmt.Errorf(head ++ "%w", inner)`: wraps `inner`. -/
  | wrapf (head : String) (inner : GoError)
  deriving DecidableEq, Repr

/-- The method `Error()`: the text of an error. -/
def GoError.Error : GoError → String
  | .lib text => text
  | .errorf head arg => head ++ arg
  | .wrapf head inner => head ++ inner.Error

/-- The method `errors.Unwrap`: only a `%w` error wraps another one. -/
def GoError.Unwrap : GoError → Option GoError
  | .wrapf _ inner => some inner
  | _ => none

/-- The `*json.SyntaxError` (or `io.EOF`, `io.ErrUnexpectedEOF`) that
`encoding/json` gives for bytes that are not a JSON text. -/
def json_SyntaxError : GoError := .lib "json: invalid JSON text"

/-- The `*json.UnmarshalTypeError` that `encoding/json` gives when a JSON value
does not fit the Go type it is decoded into. -/
def json_UnmarshalTypeError : GoError := .lib "json: cannot unmarshal value into Go value"

/-- The `*json.UnsupportedTypeError` / `*json.UnsupportedValueError` that
`json.Marshal` gives for a value it cannot encode. -/
def json_UnsupportedError : GoError := .lib "json: unsupported value"

/-! ## JSON values and Go values -/

/-- A JSON number literal. -/
inductive JNum where
  /-- A literal with neither fraction nor exponent, such as `429` or `-7`. -/
  | int (i : Int)
  /-- A literal with a fraction or an exponent; its value is `mant * 10 ^ exp10`. -/
  | dec (mant : Int) (exp10 : Int)
  deriving DecidableEq, Repr

/-- A JSON value, members of an object in the order of the text (a key may
occur more than once). -/
inductive JValue where
  | null
  | bool (b : Bool)
  | number (n : JNum)
  | string (s : String)
  | array (xs : List JValue)
  | object (ms : List (String × JValue))
  deriving Repr

/-- A Go value held in an `interface{}`, as far as `encoding/json` tells
values apart. -/
inductive GoVal where
  | nil
  | bool (b : Bool)
  /-- A `float64`; it is written as the decimal number it was read from. -/
  | float64 (n : JNum)
  | string (s : String)
  | slice (xs : List GoVal)
  | map (ms : List (String × GoVal))
  /-- A value `json.Marshal` rejects: a channel, a function, a NaN. -/
  | unsupported
  deriving Repr

/-- A Go `map[string]interface{}`: `none` is the nil map, `some ms` a map with
the entries `ms`. -/
abbrev GoMap := Option (List (String × GoVal))

/-- The assignment `m[k] = v` on the entries of a map. -/
def mapSet {α : Type} (m : List (String × α)) (k : String) (v : α) : List (String × α) :=
  match m with
  | [] => [(k, v)]
  | (k1, v1) :: rest => if k1 = k then (k, v) :: rest else (k1, v1) :: mapSet rest k v

/-- The index expression `m[k]` on the entries of a map. -/
def mapGet {α : Type} (m : List (String × α)) (k : String) : Option α :=
  match m with
  | [] => none
  | (k1, v1) :: rest => if k1 = k then some v1 else mapGet rest k

/-- The index expression `m[k]` on a `map[string]interface{}`; a missing key,
also in a nil map, gives the nil interface. -/
def GoMap.index (m : GoMap) (k : String) : GoVal :=
  match m with
  | none => .nil
  | some ms => (mapGet ms k).getD .nil

/-- The length `len(m)` of a map. -/
def GoMap.len (m : GoMap) : Nat :=
  match m with
  | none => 0
  | some ms => ms.length

/-! ## `encoding/json`: decoding -/

/-- The least magnitude that `strconv.ParseFloat(s, 64)` rounds to infinity:
`2^1024 - 2^970`, half a unit in the last place above the largest `float64`. -/
def float64Overflow : Nat := 2 ^ 1024 - 2 ^ 970

/-- Whether a number literal is out of the range of `float64`
(`strconv.ParseFloat` gives `ErrRange`). -/
def JNum.overflowsFloat64 : JNum → Bool
  | .int i => decide (float64Overflow ≤ i.natAbs)
  | .dec mant exp10 =>
    if 0 ≤ exp10 then decide (float64Overflow ≤ mant.natAbs * 10 ^ exp10.toNat)
    else decide (float64Overflow * 10 ^ (-exp10).toNat ≤ mant.natAbs)

/-- The value of `strconv.ParseInt(lit, 10, 64)` on a number literal: only a
literal without fraction and exponent, in the range of `int64`, is accepted. -/
def JNum.parseInt64 : JNum → Option Int
  | .int i => if -(2 ^ 63 : Int) ≤ i ∧ i < 2 ^ 63 then some i else none
  | .dec _ _ => none

mutual
/-- Decoding a JSON value into an `interface{}`. -/
def decodeInterface : JValue → Except GoError GoVal
  | .null => .ok .nil
  | .bool b => .ok (.bool b)
  | .number n => if n.overflowsFloat64 then .error json_UnmarshalTypeError else .ok (.float64 n)
  | .string s => .ok (.string s)
  | .array xs =>
    match decodeInterfaceList xs with
    | .ok ys => .ok (.slice ys)
    | .error e => .error e
  | .object ms =>
    match decodeInterfaceMembers ms [] with
    | .ok ys => .ok (.map ys)
    | .error e => .error e
/-- Decoding the elements of a JSON array into a `[]interface{}`. -/
def decodeInterfaceList : List JValue → Except GoError (List GoVal)
  | [] => .ok []
  | x :: xs =>
    match decodeInterface x with
    | .error e => .error e
    | .ok y =>
      match decodeInterfaceList xs with
      | .error e => .error e
      | .ok ys => .ok (y :: ys)
/-- Decoding the members of a JSON object into the entries `acc` of a
`map[string]interface{}`; a key that occurs again overwrites its entry. -/
def decodeInterfaceMembers :
    List (String × JValue) → List (String × GoVal) → Except GoError (List (String × GoVal))
  | [], acc => .ok acc
  | (k, v) :: ms, acc =>
    match decodeInterface v with
    | .error e => .error e
    | .ok y => decodeInterfaceMembers ms (mapSet acc k y)
end

/-- Decoding a JSON value into a Go `bool` that holds `cur`. -/
def decodeBool (cur : Bool) : JValue → Except GoError Bool
  | .bool b => .ok b
  | .null => .ok cur
  | _ => .error json_UnmarshalTypeError

/-- Decoding a JSON value into a Go `int` (64 bits) that holds `cur`. -/
def decodeInt (cur : Int) : JValue → Except GoError Int
  | .number n =>
    match n.parseInt64 with
    | some i => .ok i
    | none => .error json_UnmarshalTypeError
  | .null => .ok cur
  | _ => .error json_UnmarshalTypeError

/-- Decoding a JSON value into a Go `string` that holds `cur`. -/
def decodeString (cur : String) : JValue → Except GoError String
  | .string s => .ok s
  | .null => .ok cur
  | _ => .error json_UnmarshalTypeError

/-- Decoding a JSON value into a `map[string]interface{}` that holds `cur`: an
object is decoded into the map at hand (a new one when it is nil), `null` sets
the map to nil. -/
def decodeMap (cur : GoMap) : JValue → Except GoError GoMap
  | .object ms =>
    match decodeInterfaceMembers ms (cur.getD []) with
    | .ok ys => .ok (some ys)
    | .error e => .error e
  | .null => .ok none
  | _ => .error json_UnmarshalTypeError

/-- The least rune of the case-folding orbit of `c`, for the orbits that hold
an ASCII letter: `a`..`z` fold to `A`..`Z`, the long s (U+017F) to `S` and the
Kelvin sign (U+212A) to `K`.  Every other rune folds to a rune that is not
ASCII, and is left as it is. -/
def foldRune (c : Char) : Char :=
  if 97 ≤ c.toNat ∧ c.toNat ≤ 122 then Char.ofNat (c.toNat - 32)
  else if c.toNat = 0x17F then 'S'
  else if c.toNat = 0x212A then 'K'
  else c

/-- The folded form of a key, under which `encoding/json` looks a struct field up. -/
def foldName (key : String) : List Char := key.data.map foldRune

/-- Whether the object key `key` selects the struct field tagged `tag`: the
names are equal, or equal under case folding. -/
def keyMatches (key tag : String) : Bool :=
  key = tag || foldName key = foldName tag

/-! ## `encoding/json`: encoding -/

/-- The order of Go strings (byte-wise, which on UTF-8 is the order of the
runes), on the runes of two keys. -/
def runesLE : List Char → List Char → Bool
  | [], _ => true
  | _ :: _, [] => false
  | a :: as, b :: bs => decide (a.toNat < b.toNat) || (decide (a.toNat = b.toNat) && runesLE as bs)

/-- Insertion of one member into members sorted by key. -/
def insertMember (k : String) (v : JValue) : List (String × JValue) → List (String × JValue)
  | [] => [(k, v)]
  | (k1, v1) :: rest =>
    if runesLE k.data k1.data then (k, v) :: (k1, v1) :: rest
    else (k1, v1) :: insertMember k v rest

/-- The members of an encoded map, sorted by key as `json.Marshal` writes them. -/
def sortMembers : List (String × JValue) → List (String × JValue)
  | [] => []
  | (k, v) :: rest => insertMember k v (sortMembers rest)

mutual
/-- Encoding the value held in an `interface{}`. -/
def encodeInterface : GoVal → Except GoError JValue
  | .nil => .ok .null
  | .bool b => .ok (.bool b)
  | .float64 n => .ok (.number n)
  | .string s => .ok (.string s)
  | .slice xs =>
    match encodeInterfaceList xs with
    | .ok ys => .ok (.array ys)
    | .error e => .error e
  | .map ms =>
    match encodeInterfaceMembers ms with
    | .ok ys => .ok (.object (sortMembers ys))
    | .error e => .error e
  | .unsupported => .error json_UnsupportedError
/-- Encoding the elements of a slice. -/
def encodeInterfaceList : List GoVal → Except GoError (List JValue)
  | [] => .ok []
  | x :: xs =>
    match encodeInterface x with
    | .error e => .error e
    | .ok y =>
      match encodeInterfaceList xs with
      | .error e => .error e
      | .ok ys => .ok (y :: ys)
/-- Encoding the entries of a map. -/
def encodeInterfaceMembers : List (String × GoVal) → Except GoError (List (String × JValue))
  | [] => .ok []
  | (k, v) :: ms =>
    match encodeInterface v with
    | .error e => .error e
    | .ok y =>
      match encodeInterfaceMembers ms with
      | .error e => .error e
      | .ok ys => .ok ((k, y) :: ys)
end

/-- Encoding a `map[string]interface{}`: the nil map is `null`. -/
def encodeMap : GoMap → Except GoError JValue
  | none => .ok .null
  | some ms =>
    match encodeInterfaceMembers ms with
    | .ok ys => .ok (.object (sortMembers ys))
    | .error e => .error e

/-- The member of a struct field tagged `omitempty` that holds a map: left out
when the map has length zero. -/
def encodeOmitEmpty (tag : String) (m : GoMap) : Except GoError (List (String × JValue)) :=
  if m.len = 0 then .ok []
  else
    match encodeMap m with
    | .ok v => .ok [(tag, v)]
    | .error e => .error e

/-- `json.Marshal` of a `map[string]string`. -/
def json_Marshal_stringMap (payload : List (String × String)) : Except GoError JValue :=
  .ok (.object (sortMembers (payload.map (fun kv => (kv.1, JValue.string kv.2)))))

/-! ## The bytes of a body and the HTTP collaborator -/

/-- What the scanner of `encoding/json` makes of a sequence of bytes. -/
inductive Scan where
  /-- No JSON value can be read from the start of the bytes. -/
  | invalid
  /-- The bytes are the text of exactly one JSON value (and white space). -/
  | value (v : JValue)
  /-- The bytes start with the text of a JSON value, and bytes other than
  white space follow it. -/
  | trailing (v : JValue)
  deriving Repr

/-- A sequence of bytes: its text, and the scan of it. -/
structure Bytes where
  text : String
  scan : Scan
  deriving Repr

/-- The body of an HTTP response, an `io.ReadCloser`: the bytes it delivers and
the error, if any, that ends the delivery in place of `io.EOF`. -/
structure Body where
  bytes : Bytes
  readErr : Option GoError
  deriving Repr

/-- The function `io.ReadAll`: the bytes read, and the error met. -/
def io_ReadAll (body : Body) : Bytes × Option GoError := (body.bytes, body.readErr)

/-- An `*http.Response`, as far as the source and `(*http.Client).Do` read
it; `Location` is `resp.Header.Get("Location")`, empty when the header is
absent. -/
structure HttpResponse where
  StatusCode : Int
  Location : String
  Body : Body
  deriving Repr

/-- An outbound `*http.Request`: method, URL, `Content-Type` header (empty
when there is none) and the JSON value of the body, if there is a body. -/
structure Request where
  Method : String
  URL : String
  ContentType : String
  Body : Option JValue
  deriving Repr

/-- What lies below an `*http.Client` with the default redirect policy, as
the source builds it: the URL handling of `net/url` and the network with the
platform behind it, whose state has type `σ`. -/
structure HTTPClient (σ : Type) where
  /-- The error of `http.NewRequest(method, url, body)`, if it gives one. -/
  newRequestErr : String → String → Option GoError
  /-- The call `req.URL.Parse(loc)`: the URL that a `Location` header names,
  seen from the URL of the request it answers. -/
  resolveLocation : String → String → Except GoError String
  /-- One request sent over the network: a transport error or a response, and
  the state of the platform after it. -/
  exchange : σ → Request → Except GoError HttpResponse × σ

/-- The world outside the SDK: every request sent over the network so far,
oldest first, and the state of the platform. -/
structure World (σ : Type) where
  log : List Request
  platform : σ

/-- The error with which the default redirect policy ends a chain of ten
requests. -/
def stoppedAfter10Redirects : GoError := .lib "stopped after 10 redirects"

/-- The function `redirectBehavior` of `net/http`: `none` when the answer is
not to be followed, otherwise the method of the next request and whether it
carries the body again.  (A 307 or 308 is not followed when the body of the
first request cannot be read again; the requests of the source are built from
a buffer or have no body, and can.) -/
def redirectBehavior (reqMethod : String) (resp : HttpResponse) : Option (String × Bool) :=
  if resp.StatusCode = 301 ∨ resp.StatusCode = 302 ∨ resp.StatusCode = 303 then
    some (if reqMethod ≠ "GET" ∧ reqMethod ≠ "HEAD" then "GET" else reqMethod, false)
  else if resp.StatusCode = 307 ∨ resp.StatusCode = 308 then some (reqMethod, true)
  else none

/-- The loop of `(*http.Client).do`: `req` is sent; a redirect answer with a
`Location` makes the next request, to the URL it names, with the headers of
the first request `ireq` and, on 307 and 308, its body; `allowed` is the
number of further requests the redirect policy lets through. -/
def HTTPClient.sendFollowing {σ : Type} (c : HTTPClient σ) (ireq : Request) :
    Nat → World σ → Request → Except GoError HttpResponse × World σ
  | allowed, w, req =>
    match c.exchange w.platform req with
    | (.error err, s1) => (.error err, { log := w.log ++ [req], platform := s1 })
    | (.ok resp, s1) =>
      match redirectBehavior req.Method resp with
      | none => (.ok resp, { log := w.log ++ [req], platform := s1 })
      | some (redirectMethod, includeBody) =>
        if resp.Location = "" then (.ok resp, { log := w.log ++ [req], platform := s1 })
        else
          match c.resolveLocation req.URL resp.Location with
          | .error err => (.error err, { log := w.log ++ [req], platform := s1 })
          | .ok u =>
            match allowed with
            | 0 => (.error stoppedAfter10Redirects, { log := w.log ++ [req], platform := s1 })
            | left + 1 =>
              c.sendFollowing ireq left { log := w.log ++ [req], platform := s1 }
                { Method := redirectMethod, URL := u, ContentType := ireq.ContentType,
                  Body := if includeBody then ireq.Body else none }

/-- The method `(*http.Client).Do`, with the default redirect policy: at most
ten requests are sent. -/
def HTTPClient.Do {σ : Type} (c : HTTPClient σ) (w : World σ) (req : Request) :
    Except GoError HttpResponse × World σ :=
  c.sendFollowing req 9 w req

/-- The method `(*http.Client).Post`: `http.NewRequest`, the `Content-Type`
header, then `Do`. -/
def HTTPClient.Post {σ : Type} (c : HTTPClient σ) (w : World σ) (url contentType : String)
    (body : JValue) : Except GoError HttpResponse × World σ :=
  match c.newRequestErr "POST" url with
  | some err => (.error err, w)
  | none => c.Do w { Method := "POST", URL := url, ContentType := contentType, Body := some body }

/-- The method `(*http.Client).Get`: `http.NewRequest`, then `Do`. -/
def HTTPClient.Get {σ : Type} (c : HTTPClient σ) (w : World σ) (url : String) :
    Except GoError HttpResponse × World σ :=
  match c.newRequestErr "GET" url with
  | some err => (.error err, w)
  | none => c.Do w { Method := "GET", URL := url, ContentType := "", Body := none }

/-- The function `http.NewRequest(method, url, nil)`. -/
def HTTPClient.NewRequest {σ : Type} (c : HTTPClient σ) (method url : String) :
    Except GoError Request :=
  match c.newRequestErr method url with
  | some err => .error err
  | none => .ok { Method := method, URL := url, ContentType := "", Body := none }

/-! ## `sdk/go/connector/base_connector.go` -/

/-- The struct `BaseConnector`. -/
structure BaseConnector where
  ConnectionID : String
  Config : GoMap
  ConnectorName : String
  BaseURL : String
  PlatformURL : String
  deriving Repr

/-- The struct `ProxyRequest`; its JSON tags are `connection_id`,
`endpoint_config`, `params,omitempty`, `body,omitempty` and
`path_params,omitempty`. -/
structure ProxyRequest where
  ConnectionID : String
  EndpointConfig : GoMap
  Params : GoMap
  Body : GoMap
  PathParams : GoMap
  deriving Repr

/-- The struct `APIResponse`; its JSON tags are `success`,
`status_code,omitempty`, `data,omitempty` and `error,omitempty`. -/
structure APIResponse where
  Success : Bool
  StatusCode : Int
  Data : GoMap
  Error : String
  deriving Repr

/-- The zero value of `APIResponse`, which `var apiResp APIResponse` holds. -/
def APIResponse.zero : APIResponse :=
  { Success := false, StatusCode := 0, Data := none, Error := "" }

/-- `json.Marshal` of a `ProxyRequest`: the fields in the order of the
declaration, the three `omitempty` maps left out when empty. -/
def json_Marshal_ProxyRequest (r : ProxyRequest) : Except GoError JValue :=
  match encodeMap r.EndpointConfig with
  | .error e => .error e
  | .ok endpointConfig =>
    match encodeOmitEmpty "params" r.Params with
    | .error e => .error e
    | .ok params =>
      match encodeOmitEmpty "body" r.Body with
      | .error e => .error e
      | .ok body =>
        match encodeOmitEmpty "path_params" r.PathParams with
        | .error e => .error e
        | .ok pathParams =>
          .ok (.object ([("connection_id", .string r.ConnectionID),
            ("endpoint_config", endpointConfig)] ++ params ++ body ++ pathParams))

/-- Decoding one member of a JSON object into the `APIResponse` `cur`: the key
selects a field by its tag, a key that selects none is skipped. -/
def decodeAPIResponseField (cur : APIResponse) (key : String) (v : JValue) :
    Except GoError APIResponse :=
  if keyMatches key "success" then
    match decodeBool cur.Success v with
    | .ok b => .ok { cur with Success := b }
    | .error e => .error e
  else if keyMatches key "status_code" then
    match decodeInt cur.StatusCode v with
    | .ok i => .ok { cur with StatusCode := i }
    | .error e => .error e
  else if keyMatches key "data" then
    match decodeMap cur.Data v with
    | .ok m => .ok { cur with Data := m }
    | .error e => .error e
  else if keyMatches key "error" then
    match decodeString cur.Error v with
    | .ok s => .ok { cur with Error := s }
    | .error e => .error e
  else .ok cur

/-- Decoding the members of a JSON object, in their order, into an `APIResponse`. -/
def decodeAPIResponseMembers : List (String × JValue) → APIResponse → Except GoError APIResponse
  | [], cur => .ok cur
  | (k, v) :: ms, cur =>
    match decodeAPIResponseField cur k v with
    | .error e => .error e
    | .ok next => decodeAPIResponseMembers ms next

/-- Decoding a JSON value into the `APIResponse` `cur`: `null` leaves it as it
is, an object fills its fields, any other value does not fit a struct. -/
def decodeAPIResponse (cur : APIResponse) : JValue → Except GoError APIResponse
  | .null => .ok cur
  | .object ms => decodeAPIResponseMembers ms cur
  | _ => .error json_UnmarshalTypeError

/-- The call `json.Unmarshal(data, &apiResp)` with `apiResp` holding `cur`:
the bytes must be exactly one JSON value. -/
def json_Unmarshal_APIResponse (data : Bytes) (cur : APIResponse) : Except GoError APIResponse :=
  match data.scan with
  | .value v => decodeAPIResponse cur v
  | .trailing _ => .error json_SyntaxError
  | .invalid => .error json_SyntaxError

/-- The type assertion `v.(string)`. -/
def GoVal.assertString : GoVal → String × Bool
  | .string s => (s, true)
  | _ => ("", false)

/-- The function `NewBaseConnector`. -/
def NewBaseConnector (connectionID : String) (config : GoMap) : BaseConnector :=
  let asserted := (config.index "platform_url").assertString
  let platformURL := if !asserted.2 then "http://localhost:5000" else asserted.1
  { ConnectionID := connectionID
    Config := config
    ConnectorName := ""
    BaseURL := ""
    PlatformURL := platformURL }

/-- The method `(*BaseConnector).ExecuteRequest`, over the HTTP stack `http`
and the world `w`: its result and the world after it. -/
def BaseConnector.ExecuteRequest {σ : Type} (bc : BaseConnector)
    (endpointConfig params body pathParams : GoMap) (http : HTTPClient σ) (w : World σ) :
    Except GoError GoMap × World σ :=
  let proxyURL := bc.PlatformURL ++ "/api/v1/proxy/execute"
  let proxyReq : ProxyRequest :=
    { ConnectionID := bc.ConnectionID
      EndpointConfig := endpointConfig
      Params := params
      Body := body
      PathParams := pathParams }
  match json_Marshal_ProxyRequest proxyReq with
  | .error err => (.error (.wrapf "failed to marshal request: " err), w)
  | .ok jsonData =>
    match http.Post w proxyURL "application/json" jsonData with
    | (.error err, w1) => (.error (.wrapf "request failed: " err), w1)
    | (.ok resp, w1) =>
      match io_ReadAll resp.Body with
      | (_, some err) => (.error (.wrapf "failed to read response: " err), w1)
      | (bodyBytes, none) =>
        match json_Unmarshal_APIResponse bodyBytes APIResponse.zero with
        | .error err => (.error (.wrapf "failed to parse response: " err), w1)
        | .ok apiResp =>
          if !apiResp.Success then (.error (.errorf "API error: " apiResp.Error), w1)
          else (.ok apiResp.Data, w1)

/-! ## `sdk/go/client/client.go` -/

/-- The struct `ConnectorPlatformClient`; its `HTTPClient` is the HTTP stack. -/
structure ConnectorPlatformClient (σ : Type) where
  PlatformURL : String
  BaseURL : String
  HTTPClient : HTTPClient σ

/-- The struct `Connection`; its JSON tags are `id`, `connector_type`, `name`,
`user_id`, `status` and `config`. -/
structure Connection where
  ID : String
  ConnectorType : String
  Name : String
  UserID : String
  Status : String
  Config : GoMap
  deriving Repr

/-- The zero value of `Connection`, which `var connection Connection` holds. -/
def Connection.zero : Connection :=
  { ID := "", ConnectorType := "", Name := "", UserID := "", Status := "", Config := none }

/-- The function `NewClient`; `http` is the HTTP stack its `http.Client` stands on. -/
def NewClient {σ : Type} (http : HTTPClient σ) (platformURL : String) : ConnectorPlatformClient σ :=
  let platformURL := if platformURL = "" then "http://localhost:5000" else platformURL
  { PlatformURL := platformURL
    BaseURL := platformURL ++ "/api/v1"
    HTTPClient := http }

/-- Decoding one member of a JSON object into the `Connection` `cur`. -/
def decodeConnectionField (cur : Connection) (key : String) (v : JValue) :
    Except GoError Connection :=
  if keyMatches key "id" then
    match decodeString cur.ID v with
    | .ok s => .ok { cur with ID := s }
    | .error e => .error e
  else if keyMatches key "connector_type" then
    match decodeString cur.ConnectorType v with
    | .ok s => .ok { cur with ConnectorType := s }
    | .error e => .error e
  else if keyMatches key "name" then
    match decodeString cur.Name v with
    | .ok s => .ok { cur with Name := s }
    | .error e => .error e
  else if keyMatches key "user_id" then
    match decodeString cur.UserID v with
    | .ok s => .ok { cur with UserID := s }
    | .error e => .error e
  else if keyMatches key "status" then
    match decodeString cur.Status v with
    | .ok s => .ok { cur with Status := s }
    | .error e => .error e
  else if keyMatches key "config" then
    match decodeMap cur.Config v with
    | .ok m => .ok { cur with Config := m }
    | .error e => .error e
  else .ok cur

/-- Decoding the members of a JSON object, in their order, into a `Connection`. -/
def decodeConnectionMembers : List (String × JValue) → Connection → Except GoError Connection
  | [], cur => .ok cur
  | (k, v) :: ms, cur =>
    match decodeConnectionField cur k v with
    | .error e => .error e
    | .ok next => decodeConnectionMembers ms next

/-- Decoding a JSON value into the `Connection` `cur`. -/
def decodeConnection (cur : Connection) : JValue → Except GoError Connection
  | .null => .ok cur
  | .object ms => decodeConnectionMembers ms cur
  | _ => .error json_UnmarshalTypeError

/-- The first JSON value that `json.NewDecoder(body)` reads from a body: what
follows the value is left unread; without a value the error is the one that
ended the delivery, or a syntax error. -/
def json_Decoder_next (body : Body) : Except GoError JValue :=
  match body.bytes.scan with
  | .value v => .ok v
  | .trailing v => .ok v
  | .invalid => .error (body.readErr.getD json_SyntaxError)

/-- The call `json.NewDecoder(body).Decode(&connection)` with `connection`
holding `cur`. -/
def json_Decoder_Decode_Connection (body : Body) (cur : Connection) : Except GoError Connection :=
  match json_Decoder_next body with
  | .error e => .error e
  | .ok v => decodeConnection cur v

/-- The call `json.NewDecoder(body).Decode(&result)` with `result` a
`map[string]interface{}` holding `cur`. -/
def json_Decoder_Decode_map (body : Body) (cur : GoMap) : Except GoError GoMap :=
  match json_Decoder_next body with
  | .error e => .error e
  | .ok v => decodeMap cur v

/-- The method `(*ConnectorPlatformClient).GetConnection`. -/
def ConnectorPlatformClient.GetConnection {σ : Type} (c : ConnectorPlatformClient σ)
    (connectionID : String) (w : World σ) : Except GoError Connection × World σ :=
  let url := c.BaseURL ++ "/connections/" ++ connectionID
  match c.HTTPClient.Get w url with
  | (.error err, w1) => (.error err, w1)
  | (.ok resp, w1) =>
    match json_Decoder_Decode_Connection resp.Body Connection.zero with
    | .error err => (.error err, w1)
    | .ok connection => (.ok connection, w1)

/-- The method `(*ConnectorPlatformClient).DeleteConnection`; `none` is the
nil error. -/
def ConnectorPlatformClient.DeleteConnection {σ : Type} (c : ConnectorPlatformClient σ)
    (connectionID : String) (w : World σ) : Option GoError × World σ :=
  let url := c.BaseURL ++ "/connections/" ++ connectionID
  match c.HTTPClient.NewRequest "DELETE" url with
  | .error err => (some err, w)
  | .ok req =>
    match c.HTTPClient.Do w req with
    | (.error err, w1) => (some err, w1)
    | (.ok resp, w1) =>
      if resp.StatusCode ≥ 400 then
        (some (.errorf "delete failed: " (io_ReadAll resp.Body).1.text), w1)
      else (none, w1)

/-- The method `(*ConnectorPlatformClient).CompleteOAuth`. -/
def ConnectorPlatformClient.CompleteOAuth {σ : Type} (c : ConnectorPlatformClient σ)
    (connectionID code redirectURI : String) (w : World σ) : Except GoError GoMap × World σ :=
  let url := c.BaseURL ++ "/oauth/callback"
  let payload : List (String × String) :=
    [("connection_id", connectionID), ("code", code), ("redirect_uri", redirectURI)]
  match json_Marshal_stringMap payload with
  | .error err => (.error err, w)
  | .ok jsonData =>
    match c.HTTPClient.Post w url "application/json" jsonData with
    | (.error err, w1) => (.error err, w1)
    | (.ok resp, w1) =>
      match json_Decoder_Decode_map resp.Body none with
      | .error err => (.error err, w1)
      | .ok result => (.ok result, w1)

/-! ## Stub platforms and sample bodies -/

/-- A network over which every URL is accepted and every request is answered
with `resp`. -/
def stubHTTP (resp : HttpResponse) : HTTPClient Unit :=
  { newRequestErr := fun _ _ => none
    resolveLocation := fun _ loc => .ok loc
    exchange := fun s _ => (.ok resp, s) }

/-- The world before any request, over a platform in state `s`. -/
def World.start {σ : Type} (s : σ) : World σ := { log := [], platform := s }

/-- A response with status `code` and no `Location` header, whose body
delivers `bytes` in full. -/
def respond (code : Int) (bytes : Bytes) : HttpResponse :=
  { StatusCode := code, Location := "", Body := { bytes := bytes, readErr := none } }

/-- The body `{"success":true,"data":{"x":1}}`. -/
def bodySuccessX1 : Bytes :=
  { text := "\x7b\"success\":true,\"data\":\x7b\"x\":1\x7d\x7d"
    scan := .value (.object [("success", .bool true),
      ("data", .object [("x", .number (.int 1))])]) }

/-- The body `{"success":false,"error":"rate limited","status_code":c}`. -/
def bodyRateLimited (c : Int) : Bytes :=
  { text := "\x7b\"success\":false,\"error\":\"rate limited\",\"status_code\":" ++ toString c ++ "\x7d"
    scan := .value (.object [("success", .bool false), ("error", .string "rate limited"),
      ("status_code", .number (.int c))]) }

/-- The body `<html>Bad Gateway</html>`, which is not JSON. -/
def bodyHTML : Bytes :=
  { text := "<html>Bad Gateway</html>", scan := .invalid }

/-- The body `null`. -/
def bodyNull : Bytes := { text := "null", scan := .value .null }

/-- The body `[1,2]`. -/
def bodyArray : Bytes :=
  { text := "[1,2]", scan := .value (.array [.number (.int 1), .number (.int 2)]) }

/-- The body `{"error":"connection not found"}`. -/
def bodyNotFound : Bytes :=
  { text := "\x7b\"error\":\"connection not found\"\x7d"
    scan := .value (.object [("error", .string "connection not found")]) }

/-- The body `{"error":"invalid_grant"}`. -/
def bodyInvalidGrant : Bytes :=
  { text := "\x7b\"error\":\"invalid_grant\"\x7d"
    scan := .value (.object [("error", .string "invalid_grant")]) }

/-- The body `{"status":"active"}`. -/
def bodyActive : Bytes :=
  { text := "\x7b\"status\":\"active\"\x7d"
    scan := .value (.object [("status", .string "active")]) }

/-- An empty body. -/
def bodyEmpty : Bytes := { text := "", scan := .invalid }

/-- A platform whose state is the URLs of its live connections: a `DELETE` of
a live connection removes it and answers 204 with an empty body, a `DELETE`
of any other URL answers 404 with a JSON error object. -/
def deletingPlatform : HTTPClient (List String) :=
  { newRequestErr := fun _ _ => none
    resolveLocation := fun _ loc => .ok loc
    exchange := fun live req =>
      if req.Method = "DELETE" ∧ req.URL ∈ live then
        (.ok (respond 204 bodyEmpty), live.filter (fun u => u ≠ req.URL))
      else (.ok (respond 404 bodyNotFound), live) }

/-- The `code` member of the body of a request, if it is a string. -/
def Request.code (req : Request) : Option String :=
  match req.Body with
  | some (.object ms) =>
    match mapGet ms "code" with
    | some (.string c) => some c
    | _ => none
  | _ => none

/-- A platform whose state is the authorization codes redeemed so far: a
completion with a fresh code answers 200 and redeems the code, a completion
with a redeemed code (or without a code) answers 400 with a JSON error object. -/
def oauthPlatform : HTTPClient (List String) :=
  { newRequestErr := fun _ _ => none
    resolveLocation := fun _ loc => .ok loc
    exchange := fun redeemed req =>
      match req.code with
      | some c =>
        if c ∈ redeemed then (.ok (respond 400 bodyInvalidGrant), redeemed)
        else (.ok (respond 200 bodyActive), c :: redeemed)
      | none => (.ok (respond 400 bodyInvalidGrant), redeemed) }

/-- The body `{"success":"yes"}`. -/
def bodySuccessYes : Bytes :=
  { text := "\x7b\"success\":\"yes\"\x7d"
    scan := .value (.object [("success", .string "yes")]) }

/-- A JSON value that a Go `bool` takes: `true`, `false` or `null`. -/
def JValue.fitsBool : JValue → Bool
  | .bool _ => true
  | .null => true
  | _ => false

/-- A JSON value that a Go `int` takes: `null`, or a number written without
fraction and exponent within the range of `int64`. -/
def JValue.fitsInt : JValue → Bool
  | .number n => n.parseInt64.isSome
  | .null => true
  | _ => false

/-- A JSON value that a Go `string` takes: a string or `null`. -/
def JValue.fitsString : JValue → Bool
  | .string _ => true
  | .null => true
  | _ => false

/-- A JSON value of the type that a Go map takes: an object or `null`. -/
def JValue.fitsMap : JValue → Bool
  | .object _ => true
  | .null => true
  | _ => false

/-- A member of a response object is wrong-typed for the envelope: its key
selects `success`, `status_code`, `data` or `error`, and its value is not of
the JSON type that the field takes. -/
def wrongTypedMember (key : String) (v : JValue) : Bool :=
  (keyMatches key "success" && !v.fitsBool) ||
  (keyMatches key "status_code" && !v.fitsInt) ||
  (keyMatches key "data" && !v.fitsMap) ||
  (keyMatches key "error" && !v.fitsString)

/-- The platform answers the proxy call of `ExecuteRequest` with `resp`: the
request marshals, and the `POST` of it to the proxy endpoint gives `resp`. -/
def ProxyAnswered {σ : Type} (bc : BaseConnector) (endpointConfig params body pathParams : GoMap)
    (http : HTTPClient σ) (w : World σ) (resp : HttpResponse) : Prop :=
  ∃ jsonData,
    json_Marshal_ProxyRequest
      { ConnectionID := bc.ConnectionID, EndpointConfig := endpointConfig, Params := params,
        Body := body, PathParams := pathParams } = .ok jsonData ∧
    (http.Post w (bc.PlatformURL ++ "/api/v1/proxy/execute") "application/json" jsonData).1 =
      .ok resp

/-! ## Statements about the directory client -/

/-- The platform answers the `DELETE` of `DeleteConnection` with `resp`: the
request is built, and `Do` gives `resp` for it. -/
def DeleteAnswered {σ : Type} (c : ConnectorPlatformClient σ) (connectionID : String)
    (w : World σ) (resp : HttpResponse) : Prop :=
  ∃ req, c.HTTPClient.NewRequest "DELETE" (c.BaseURL ++ "/connections/" ++ connectionID) = .ok req ∧
    (c.HTTPClient.Do w req).1 = .ok resp

/-! ## Helper lemmas -/

/-- The result of `ExecuteRequest` once the platform has answered with a
response whose body is delivered in full: it is read off the decoded envelope. -/
theorem ExecuteRequest_of_answer {σ : Type} (bc : BaseConnector)
    (endpointConfig params body pathParams : GoMap) (http : HTTPClient σ) (w : World σ)
    (resp : HttpResponse)
    (ha : ProxyAnswered bc endpointConfig params body pathParams http w resp)
    (hr : resp.Body.readErr = none) :
    (bc.ExecuteRequest endpointConfig params body pathParams http w).1 =
      match json_Unmarshal_APIResponse resp.Body.bytes APIResponse.zero with
      | .error err => .error (.wrapf "failed to parse response: " err)
      | .ok apiResp =>
        if !apiResp.Success then .error (.errorf "API error: " apiResp.Error)
        else .ok apiResp.Data := by
  obtain ⟨jsonData, hm, hp⟩ := ha
  unfold BaseConnector.ExecuteRequest
  simp only [hm]
  generalize hpost : http.Post w (bc.PlatformURL ++ "/api/v1/proxy/execute")
    "application/json" jsonData = posted at hp ⊢
  obtain ⟨r, w1⟩ := posted
  simp only at hp
  subst hp
  simp only [io_ReadAll, hr]
  cases json_Unmarshal_APIResponse resp.Body.bytes APIResponse.zero with
  | error err => rfl
  | ok apiResp => cases hsucc : apiResp.Success <;> simp [hsucc]

/-- Two texts that start with the heads `"failed to parse response: "` and
`"API error: "` differ. -/
theorem parse_text_ne_api_text (a b : String) :
    "failed to parse response: " ++ a ≠ "API error: " ++ b := by
  intro h
  have hd := congrArg String.data h
  simp only [String.data_append] at hd
  have hh := congrArg List.head? hd
  simp at hh

/-- A member whose key does not select the field `success` leaves the field
`Success` as it is. -/
theorem decodeAPIResponseField_Success (cur next : APIResponse) (key : String) (v : JValue)
    (hk : keyMatches key "success" = false)
    (hd : decodeAPIResponseField cur key v = .ok next) : next.Success = cur.Success := by
  unfold decodeAPIResponseField at hd
  simp only [hk, Bool.false_eq_true, if_false] at hd
  split at hd
  · split at hd
    · cases hd; rfl
    · cases hd
  · split at hd
    · split at hd
      · cases hd; rfl
      · cases hd
    · split at hd
      · split at hd
        · cases hd; rfl
        · cases hd
      · cases hd; rfl

/-- An object none of whose keys selects the field `success` leaves the field
`Success` as it is. -/
theorem decodeAPIResponseMembers_Success (ms : List (String × JValue)) :
    ∀ (cur next : APIResponse), (∀ kv ∈ ms, keyMatches kv.1 "success" = false) →
      decodeAPIResponseMembers ms cur = .ok next → next.Success = cur.Success := by
  induction ms with
  | nil =>
    intro cur next _ hd
    simp only [decodeAPIResponseMembers] at hd
    cases hd
    rfl
  | cons kv rest ih =>
    intro cur next hk hd
    obtain ⟨k, v⟩ := kv
    simp only [decodeAPIResponseMembers] at hd
    cases hf : decodeAPIResponseField cur k v with
    | error e => simp [hf] at hd
    | ok mid =>
      simp only [hf] at hd
      have h1 := decodeAPIResponseField_Success cur mid k v (hk (k, v) (by simp)) hf
      have h2 := ih mid next (fun kv hmem => hk kv (by simp [hmem])) hd
      rw [h2, h1]

/-- A JSON value that is neither `null` nor an object does not decode into an
`APIResponse`. -/
theorem decodeAPIResponse_wrong_top (cur : APIResponse) (v : JValue)
    (hv : v ≠ .null ∧ ∀ ms, v ≠ .object ms) :
    decodeAPIResponse cur v = .error json_UnmarshalTypeError := by
  cases v with
  | null => exact absurd rfl hv.1
  | object ms => exact absurd rfl (hv.2 ms)
  | bool b => rfl
  | number n => rfl
  | string s => rfl
  | array xs => rfl

/-- The result of `DeleteConnection` once the platform has answered: it is
read off the status code, and the body when the code is 400 or above. -/
theorem DeleteConnection_of_answer {σ : Type} (c : ConnectorPlatformClient σ)
    (connectionID : String) (w : World σ) (resp : HttpResponse)
    (ha : DeleteAnswered c connectionID w resp) :
    (c.DeleteConnection connectionID w).1 =
      if resp.StatusCode ≥ 400 then some (.errorf "delete failed: " resp.Body.bytes.text)
      else none := by
  obtain ⟨req, hreq, hdo⟩ := ha
  unfold ConnectorPlatformClient.DeleteConnection
  simp only [hreq]
  generalize c.HTTPClient.Do w req = done at hdo ⊢
  obtain ⟨r, w1⟩ := done
  simp only at hdo
  subst hdo
  simp only [io_ReadAll]
  split <;> rfl

/-- A key that selects the field tagged `tag` has the folded name of `tag`. -/
theorem keyMatches_foldName (key tag : String) (h : keyMatches key tag = true) :
    foldName key = foldName tag := by
  unfold keyMatches at h
  rcases Bool.or_eq_true _ _ |>.mp h with h1 | h2
  · rw [of_decide_eq_true h1]
  · exact of_decide_eq_true h2

/-- A key selects at most one of two tags with different folded names. -/
theorem keyMatches_exclusive (key a b : String) (hab : foldName a ≠ foldName b)
    (ha : keyMatches key a = true) : keyMatches key b = false := by
  cases hb : keyMatches key b with
  | false => rfl
  | true =>
    exact absurd ((keyMatches_foldName key a ha).symm.trans (keyMatches_foldName key b hb)) hab

mutual
/-- The only error of decoding into an `interface{}` is the type error. -/
theorem decodeInterface_error :
    ∀ (v : JValue) (e : GoError), decodeInterface v = .error e → e = json_UnmarshalTypeError
  | .null, e, h => by simp [decodeInterface] at h
  | .bool _, e, h => by simp [decodeInterface] at h
  | .string _, e, h => by simp [decodeInterface] at h
  | .number n, e, h => by
    simp only [decodeInterface] at h
    split at h
    · cases h; rfl
    · cases h
  | .array xs, e, h => by
    simp only [decodeInterface] at h
    cases hx : decodeInterfaceList xs with
    | ok ys => simp [hx] at h
    | error e1 =>
      simp only [hx] at h
      cases h
      exact decodeInterfaceList_error xs e hx
  | .object ms, e, h => by
    simp only [decodeInterface] at h
    cases hx : decodeInterfaceMembers ms [] with
    | ok ys => simp [hx] at h
    | error e1 =>
      simp only [hx] at h
      cases h
      exact decodeInterfaceMembers_error ms [] e hx
/-- The only error of decoding the elements of an array is the type error. -/
theorem decodeInterfaceList_error :
    ∀ (xs : List JValue) (e : GoError),
      decodeInterfaceList xs = .error e → e = json_UnmarshalTypeError
  | [], e, h => by simp [decodeInterfaceList] at h
  | x :: xs, e, h => by
    simp only [decodeInterfaceList] at h
    cases hx : decodeInterface x with
    | error e1 =>
      simp only [hx] at h
      cases h
      exact decodeInterface_error x e hx
    | ok y =>
      simp only [hx] at h
      cases hxs : decodeInterfaceList xs with
      | error e1 =>
        simp only [hxs] at h
        cases h
        exact decodeInterfaceList_error xs e hxs
      | ok ys => simp [hxs] at h
/-- The only error of decoding the members of an object is the type error. -/
theorem decodeInterfaceMembers_error :
    ∀ (ms : List (String × JValue)) (acc : List (String × GoVal)) (e : GoError),
      decodeInterfaceMembers ms acc = .error e → e = json_UnmarshalTypeError
  | [], acc, e, h => by simp [decodeInterfaceMembers] at h
  | (k, v) :: ms, acc, e, h => by
    simp only [decodeInterfaceMembers] at h
    cases hv : decodeInterface v with
    | error e1 =>
      simp only [hv] at h
      cases h
      exact decodeInterface_error v e hv
    | ok y =>
      simp only [hv] at h
      exact decodeInterfaceMembers_error ms (mapSet acc k y) e h
end

/-- The only error of decoding into a `map[string]interface{}` is the type error. -/
theorem decodeMap_error (cur : GoMap) (v : JValue) (e : GoError)
    (h : decodeMap cur v = .error e) : e = json_UnmarshalTypeError := by
  cases v with
  | object ms =>
    simp only [decodeMap] at h
    cases hx : decodeInterfaceMembers ms (cur.getD []) with
    | ok ys => simp [hx] at h
    | error e1 =>
      simp only [hx] at h
      cases h
      exact decodeInterfaceMembers_error ms _ e hx
  | null => simp [decodeMap] at h
  | bool b => simp only [decodeMap] at h; cases h; rfl
  | number n => simp only [decodeMap] at h; cases h; rfl
  | string s => simp only [decodeMap] at h; cases h; rfl
  | array xs => simp only [decodeMap] at h; cases h; rfl

/-- The only error of decoding a Go `bool` is the type error. -/
theorem decodeBool_error (cur : Bool) (v : JValue) (e : GoError)
    (h : decodeBool cur v = .error e) : e = json_UnmarshalTypeError := by
  cases v <;> simp only [decodeBool] at h <;> cases h <;> rfl

/-- The only error of decoding a Go `int` is the type error. -/
theorem decodeInt_error (cur : Int) (v : JValue) (e : GoError)
    (h : decodeInt cur v = .error e) : e = json_UnmarshalTypeError := by
  cases v with
  | number n =>
    simp only [decodeInt] at h
    split at h
    · cases h
    · cases h; rfl
  | null => simp [decodeInt] at h
  | bool b => simp only [decodeInt] at h; cases h; rfl
  | string s => simp only [decodeInt] at h; cases h; rfl
  | array xs => simp only [decodeInt] at h; cases h; rfl
  | object ms => simp only [decodeInt] at h; cases h; rfl

/-- The only error of decoding a Go `string` is the type error. -/
theorem decodeString_error (cur : String) (v : JValue) (e : GoError)
    (h : decodeString cur v = .error e) : e = json_UnmarshalTypeError := by
  cases v <;> simp only [decodeString] at h <;> cases h <;> rfl

/-- The only error of decoding one member into an `APIResponse` is the type error. -/
theorem decodeAPIResponseField_error (cur : APIResponse) (key : String) (v : JValue)
    (e : GoError) (h : decodeAPIResponseField cur key v = .error e) :
    e = json_UnmarshalTypeError := by
  unfold decodeAPIResponseField at h
  split at h
  · cases hb : decodeBool cur.Success v with
    | ok b => simp [hb] at h
    | error e1 => simp only [hb] at h; cases h; exact decodeBool_error _ _ _ hb
  · split at h
    · cases hb : decodeInt cur.StatusCode v with
      | ok b => simp [hb] at h
      | error e1 => simp only [hb] at h; cases h; exact decodeInt_error _ _ _ hb
    · split at h
      · cases hb : decodeMap cur.Data v with
        | ok b => simp [hb] at h
        | error e1 => simp only [hb] at h; cases h; exact decodeMap_error _ _ _ hb
      · split at h
        · cases hb : decodeString cur.Error v with
          | ok b => simp [hb] at h
          | error e1 => simp only [hb] at h; cases h; exact decodeString_error _ _ _ hb
        · cases h

/-- The only error of decoding the members of an object into an `APIResponse`
is the type error. -/
theorem decodeAPIResponseMembers_error (ms : List (String × JValue)) :
    ∀ (cur : APIResponse) (e : GoError),
      decodeAPIResponseMembers ms cur = .error e → e = json_UnmarshalTypeError := by
  induction ms with
  | nil => intro cur e h; simp [decodeAPIResponseMembers] at h
  | cons kv rest ih =>
    intro cur e h
    obtain ⟨k, v⟩ := kv
    simp only [decodeAPIResponseMembers] at h
    cases hf : decodeAPIResponseField cur k v with
    | error e1 =>
      simp only [hf] at h
      cases h
      exact decodeAPIResponseField_error cur k v e hf
    | ok mid =>
      simp only [hf] at h
      exact ih mid e h

/-- A wrong-typed member does not decode into an `APIResponse`. -/
theorem decodeAPIResponseField_wrongTyped (cur : APIResponse) (key : String) (v : JValue)
    (h : wrongTypedMember key v = true) :
    decodeAPIResponseField cur key v = .error json_UnmarshalTypeError := by
  unfold wrongTypedMember at h
  simp only [Bool.or_eq_true, Bool.and_eq_true, Bool.not_eq_true'] at h
  unfold decodeAPIResponseField
  rcases h with ((⟨hk, hv⟩ | ⟨hk, hv⟩) | ⟨hk, hv⟩) | ⟨hk, hv⟩
  · simp only [hk, if_true]
    cases v <;> simp_all [decodeBool, JValue.fitsBool]
  · have h1 : keyMatches key "success" = false :=
      keyMatches_exclusive key "status_code" "success" (by decide) hk
    simp only [h1, hk, Bool.false_eq_true, if_false, if_true]
    cases v with
    | number n =>
      simp only [JValue.fitsInt] at hv
      cases hp : n.parseInt64 with
      | none => simp [decodeInt, hp]
      | some i => simp [hp] at hv
    | null => simp [JValue.fitsInt] at hv
    | bool b => simp [decodeInt]
    | string s => simp [decodeInt]
    | array xs => simp [decodeInt]
    | object ms => simp [decodeInt]
  · have h1 : keyMatches key "success" = false :=
      keyMatches_exclusive key "data" "success" (by decide) hk
    have h2 : keyMatches key "status_code" = false :=
      keyMatches_exclusive key "data" "status_code" (by decide) hk
    simp only [h1, h2, hk, Bool.false_eq_true, if_false, if_true]
    cases v <;> simp_all [decodeMap, JValue.fitsMap]
  · have h1 : keyMatches key "success" = false :=
      keyMatches_exclusive key "error" "success" (by decide) hk
    have h2 : keyMatches key "status_code" = false :=
      keyMatches_exclusive key "error" "status_code" (by decide) hk
    have h3 : keyMatches key "data" = false :=
      keyMatches_exclusive key "error" "data" (by decide) hk
    simp only [h1, h2, h3, hk, Bool.false_eq_true, if_false, if_true]
    cases v <;> simp_all [decodeString, JValue.fitsString]

/-- An object with a wrong-typed member does not decode into an `APIResponse`. -/
theorem decodeAPIResponseMembers_wrongTyped (ms : List (String × JValue)) :
    ∀ (cur : APIResponse), (∃ kv ∈ ms, wrongTypedMember kv.1 kv.2 = true) →
      decodeAPIResponseMembers ms cur = .error json_UnmarshalTypeError := by
  induction ms with
  | nil => intro cur h; obtain ⟨kv, hmem, _⟩ := h; cases hmem
  | cons head rest ih =>
    intro cur h
    obtain ⟨k, v⟩ := head
    simp only [decodeAPIResponseMembers]
    cases hf : decodeAPIResponseField cur k v with
    | error e1 =>
      simp only
      rw [decodeAPIResponseField_error cur k v e1 hf]
    | ok mid =>
      simp only
      obtain ⟨kv, hmem, hwrong⟩ := h
      rcases List.mem_cons.mp hmem with hhead | htail
      · subst hhead
        rw [decodeAPIResponseField_wrongTyped cur k v hwrong] at hf
        cases hf
      · exact ih mid ⟨kv, htail, hwrong⟩

/-- C1: for every response body that decodes to an envelope with
`success = true`, `ExecuteRequest` returns exactly the envelope's data payload
and no error. -/
theorem ExecuteRequest_success_returns_data {σ : Type} (bc : BaseConnector)
    (endpointConfig params body pathParams : GoMap) (http : HTTPClient σ) (w : World σ)
    (resp : HttpResponse) (apiResp : APIResponse)
    (ha : ProxyAnswered bc endpointConfig params body pathParams http w resp)
    (hr : resp.Body.readErr = none)
    (hd : json_Unmarshal_APIResponse resp.Body.bytes APIResponse.zero = .ok apiResp)
    (hs : apiResp.Success = true) :
    (bc.ExecuteRequest endpointConfig params body pathParams http w).1 = .ok apiResp.Data := by
  rw [ExecuteRequest_of_answer bc endpointConfig params body pathParams http w resp ha hr, hd]
  simp [hs]

/-- Witness of C1: the body `{"success":true,"data":{"x":1}}` yields the data
`{"x":1}` and a nil error. -/
theorem ExecuteRequest_success_returns_data_witness :
    ((NewBaseConnector "conn-1" none).ExecuteRequest none none none none
        (stubHTTP (respond 200 bodySuccessX1)) (World.start ())).1 =
      .ok (some [("x", GoVal.float64 (.int 1))]) :=
  ExecuteRequest_success_returns_data (NewBaseConnector "conn-1" none) none none none none
    (stubHTTP (respond 200 bodySuccessX1)) (World.start ()) (respond 200 bodySuccessX1)
    { Success := true, StatusCode := 0, Data := some [("x", GoVal.float64 (.int 1))], Error := "" }
    ⟨_, rfl, rfl⟩ rfl rfl rfl

/-- C2 as stated fails: the envelopes `{success:false, error:"rate limited",
status_code:429}` and `{success:false, error:"rate limited", status_code:503}`
make `ExecuteRequest` fail with one and the same error, of text
`API error: rate limited`, so that no reading of the error gives back the
status code. -/
theorem ExecuteRequest_error_drops_status_code :
    ((NewBaseConnector "conn-1" none).ExecuteRequest none none none none
        (stubHTTP (respond 200 (bodyRateLimited 429))) (World.start ())).1 =
      .error (.errorf "API error: " "rate limited") ∧
    (GoError.errorf "API error: " "rate limited").Error = "API error: rate limited" ∧
    ¬ ∃ statusOf : Except GoError GoMap → Int,
      statusOf ((NewBaseConnector "conn-1" none).ExecuteRequest none none none none
        (stubHTTP (respond 200 (bodyRateLimited 429))) (World.start ())).1 = 429 ∧
      statusOf ((NewBaseConnector "conn-1" none).ExecuteRequest none none none none
        (stubHTTP (respond 200 (bodyRateLimited 503))) (World.start ())).1 = 503 := by
  refine ⟨rfl, by decide, ?_⟩
  rintro ⟨statusOf, h1, h2⟩
  have same :
      ((NewBaseConnector "conn-1" none).ExecuteRequest none none none none
        (stubHTTP (respond 200 (bodyRateLimited 429))) (World.start ())).1 =
      ((NewBaseConnector "conn-1" none).ExecuteRequest none none none none
        (stubHTTP (respond 200 (bodyRateLimited 503))) (World.start ())).1 := rfl
  rw [same, h2] at h1
  exact absurd h1 (by decide)

/-- C2, amended: for every response envelope with `success = false` and error
message `m`, whatever its status code, `ExecuteRequest` fails with the error
`fmt.Errorf("API error: %s", m)`, whose text is `"API error: "` followed by
`m` and which wraps no other error. -/
theorem ExecuteRequest_failure_carries_message {σ : Type} (bc : BaseConnector)
    (endpointConfig params body pathParams : GoMap) (http : HTTPClient σ) (w : World σ)
    (resp : HttpResponse) (apiResp : APIResponse)
    (ha : ProxyAnswered bc endpointConfig params body pathParams http w resp)
    (hr : resp.Body.readErr = none)
    (hd : json_Unmarshal_APIResponse resp.Body.bytes APIResponse.zero = .ok apiResp)
    (hs : apiResp.Success = false) :
    ∃ err, (bc.ExecuteRequest endpointConfig params body pathParams http w).1 = .error err ∧
      err = .errorf "API error: " apiResp.Error ∧
      err.Error = "API error: " ++ apiResp.Error ∧
      err.Unwrap = none := by
  refine ⟨.errorf "API error: " apiResp.Error, ?_, rfl, rfl, rfl⟩
  rw [ExecuteRequest_of_answer bc endpointConfig params body pathParams http w resp ha hr, hd]
  simp [hs]

/-- Witness of C2, amended: the envelope `{success:false, error:"rate limited",
status_code:429}` fails with an error of text `API error: rate limited`. -/
theorem ExecuteRequest_failure_carries_message_witness :
    ∃ err, ((NewBaseConnector "conn-1" none).ExecuteRequest none none none none
        (stubHTTP (respond 200 (bodyRateLimited 429))) (World.start ())).1 = .error err ∧
      err = .errorf "API error: " "rate limited" ∧
      err.Error = "API error: " ++ "rate limited" ∧
      err.Unwrap = none :=
  ExecuteRequest_failure_carries_message (NewBaseConnector "conn-1" none) none none none none
    (stubHTTP (respond 200 (bodyRateLimited 429))) (World.start ())
    (respond 200 (bodyRateLimited 429))
    { Success := false, StatusCode := 429, Data := none, Error := "rate limited" }
    ⟨_, rfl, rfl⟩ rfl rfl rfl

/-- C3: for every response body that is not valid JSON, `ExecuteRequest`
fails with the parse error, `failed to parse response: ` wrapping the syntax
error of the JSON library; it returns no data, empty or not. -/
theorem ExecuteRequest_invalid_json_fails {σ : Type} (bc : BaseConnector)
    (endpointConfig params body pathParams : GoMap) (http : HTTPClient σ) (w : World σ)
    (resp : HttpResponse)
    (ha : ProxyAnswered bc endpointConfig params body pathParams http w resp)
    (hr : resp.Body.readErr = none)
    (hj : ∀ v, resp.Body.bytes.scan ≠ .value v) :
    (bc.ExecuteRequest endpointConfig params body pathParams http w).1 =
        .error (.wrapf "failed to parse response: " json_SyntaxError) ∧
      ∀ data, (bc.ExecuteRequest endpointConfig params body pathParams http w).1 ≠ .ok data := by
  have hfail : json_Unmarshal_APIResponse resp.Body.bytes APIResponse.zero =
      .error json_SyntaxError := by
    unfold json_Unmarshal_APIResponse
    cases hscan : resp.Body.bytes.scan with
    | invalid => rfl
    | value v => exact absurd hscan (hj v)
    | trailing v => rfl
  have hres : (bc.ExecuteRequest endpointConfig params body pathParams http w).1 =
      .error (.wrapf "failed to parse response: " json_SyntaxError) := by
    rw [ExecuteRequest_of_answer bc endpointConfig params body pathParams http w resp ha hr, hfail]
  refine ⟨hres, ?_⟩
  intro data hok
  rw [hres] at hok
  cases hok

/-- Witness of C3: the body `<html>Bad Gateway</html>` fails with the parse error. -/
theorem ExecuteRequest_invalid_json_fails_witness :
    ((NewBaseConnector "conn-1" none).ExecuteRequest none none none none
        (stubHTTP (respond 502 bodyHTML)) (World.start ())).1 =
        .error (.wrapf "failed to parse response: " json_SyntaxError) ∧
      ∀ data, ((NewBaseConnector "conn-1" none).ExecuteRequest none none none none
        (stubHTTP (respond 502 bodyHTML)) (World.start ())).1 ≠ .ok data :=
  ExecuteRequest_invalid_json_fails (NewBaseConnector "conn-1" none) none none none none
    (stubHTTP (respond 502 bodyHTML)) (World.start ()) (respond 502 bodyHTML)
    ⟨_, rfl, rfl⟩ rfl (fun v h => by cases h)

/-- C4 as stated fails: the body `null` is valid JSON without the envelope
shape, and `ExecuteRequest` fails on it with the proxy error kind, `API error: `
with an empty message, not with the parse error kind. -/
theorem ExecuteRequest_null_body_is_api_error :
    ((NewBaseConnector "conn-1" none).ExecuteRequest none none none none
        (stubHTTP (respond 200 bodyNull)) (World.start ())).1 =
      .error (.errorf "API error: " "") ∧
    ¬ ∃ err, ((NewBaseConnector "conn-1" none).ExecuteRequest none none none none
        (stubHTTP (respond 200 bodyNull)) (World.start ())).1 =
      .error (.wrapf "failed to parse response: " err) := by
  refine ⟨rfl, ?_⟩
  rintro ⟨err, h⟩
  have hval : ((NewBaseConnector "conn-1" none).ExecuteRequest none none none none
        (stubHTTP (respond 200 bodyNull)) (World.start ())).1 =
      .error (.errorf "API error: " "") := rfl
  rw [hval] at h
  cases h

/-- C4, amended: for every response body that is valid JSON, with value `v`:
`ExecuteRequest` fails with the parse error kind, `failed to parse response: `
wrapping the decoding error, whenever `v` does not decode into the envelope
struct; that is so for every `v` that is neither `null` nor an object, and
for every object with a wrong-typed member (a member whose key selects
`success` and whose value is not `true`, `false` or `null`, or selects
`status_code` and is not `null` or an integer in the range of `int64`, or
selects `data` and is not `null` or an object, or selects `error` and is not
`null` or a string).  When `v` is `null`, or an object without a `success`
member, and decodes, `ExecuteRequest` fails with the proxy error kind,
`API error: ` and the decoded message.  The two kinds differ, as values and
in their texts. -/
theorem ExecuteRequest_undecodable_is_parse_error {σ : Type} (bc : BaseConnector)
    (endpointConfig params body pathParams : GoMap) (http : HTTPClient σ) (w : World σ)
    (resp : HttpResponse) (v : JValue)
    (ha : ProxyAnswered bc endpointConfig params body pathParams http w resp)
    (hr : resp.Body.readErr = none)
    (hv : resp.Body.bytes.scan = .value v) :
    (∀ err, decodeAPIResponse APIResponse.zero v = .error err →
      (bc.ExecuteRequest endpointConfig params body pathParams http w).1 =
        .error (.wrapf "failed to parse response: " err)) ∧
    ((v ≠ .null ∧ ∀ ms, v ≠ .object ms) →
      (bc.ExecuteRequest endpointConfig params body pathParams http w).1 =
        .error (.wrapf "failed to parse response: " json_UnmarshalTypeError)) ∧
    ((∃ ms, v = .object ms ∧ ∃ kv ∈ ms, wrongTypedMember kv.1 kv.2 = true) →
      (bc.ExecuteRequest endpointConfig params body pathParams http w).1 =
        .error (.wrapf "failed to parse response: " json_UnmarshalTypeError)) ∧
    ((v = .null ∨ ∃ ms, v = .object ms ∧ ∀ kv ∈ ms, keyMatches kv.1 "success" = false) →
      ∀ apiResp, decodeAPIResponse APIResponse.zero v = .ok apiResp →
        (bc.ExecuteRequest endpointConfig params body pathParams http w).1 =
          .error (.errorf "API error: " apiResp.Error)) ∧
    (∀ err m, GoError.wrapf "failed to parse response: " err ≠ GoError.errorf "API error: " m ∧
      (GoError.wrapf "failed to parse response: " err).Error ≠
        (GoError.errorf "API error: " m).Error) := by
  have hres := ExecuteRequest_of_answer bc endpointConfig params body pathParams http w resp ha hr
  have hun : json_Unmarshal_APIResponse resp.Body.bytes APIResponse.zero =
      decodeAPIResponse APIResponse.zero v := by
    unfold json_Unmarshal_APIResponse
    rw [hv]
  rw [hun] at hres
  refine ⟨?_, ?_, ?_, ?_, ?_⟩
  · intro err herr
    rw [hres, herr]
  · intro hshape
    rw [hres, decodeAPIResponse_wrong_top APIResponse.zero v hshape]
  · rintro ⟨ms, hobj, hwrong⟩
    subst hobj
    rw [hres]
    simp only [decodeAPIResponse]
    rw [decodeAPIResponseMembers_wrongTyped ms APIResponse.zero hwrong]
  · intro hshape apiResp hok
    have hfalse : apiResp.Success = false := by
      rcases hshape with hnull | ⟨ms, hobj, hkeys⟩
      · subst hnull
        simp only [decodeAPIResponse] at hok
        cases hok
        rfl
      · subst hobj
        simp only [decodeAPIResponse] at hok
        exact decodeAPIResponseMembers_Success ms APIResponse.zero apiResp hkeys hok
    rw [hres, hok]
    simp [hfalse]
  · intro err m
    refine ⟨fun h => GoError.noConfusion h, ?_⟩
    simp only [GoError.Error]
    exact parse_text_ne_api_text _ _

/-- Witness of C4, amended: the body `[1,2]`, of the wrong top-level type, and
the body `{"success":"yes"}`, with a wrong-typed member, both fail with the
parse error kind. -/
theorem ExecuteRequest_undecodable_is_parse_error_witness :
    ((NewBaseConnector "conn-1" none).ExecuteRequest none none none none
        (stubHTTP (respond 200 bodyArray)) (World.start ())).1 =
      .error (.wrapf "failed to parse response: " json_UnmarshalTypeError) ∧
    ((NewBaseConnector "conn-1" none).ExecuteRequest none none none none
        (stubHTTP (respond 200 bodySuccessYes)) (World.start ())).1 =
      .error (.wrapf "failed to parse response: " json_UnmarshalTypeError) :=
  ⟨(ExecuteRequest_undecodable_is_parse_error (NewBaseConnector "conn-1" none) none none none
      none (stubHTTP (respond 200 bodyArray)) (World.start ()) (respond 200 bodyArray)
      (.array [.number (.int 1), .number (.int 2)]) ⟨_, rfl, rfl⟩ rfl rfl).2.1
      ⟨fun h => JValue.noConfusion h, fun _ h => JValue.noConfusion h⟩,
    (ExecuteRequest_undecodable_is_parse_error (NewBaseConnector "conn-1" none) none none none
      none (stubHTTP (respond 200 bodySuccessYes)) (World.start ()) (respond 200 bodySuccessYes)
      (.object [("success", .string "yes")]) ⟨_, rfl, rfl⟩ rfl rfl).2.2.1
      ⟨[("success", .string "yes")], rfl, ("success", .string "yes"), List.mem_singleton.mpr rfl,
        by decide⟩⟩

/-- C5, the code at the failing input: the platform answers `GET` of an
unknown connection with status 404 and the body
`{"error":"connection not found"}`, and `GetConnection` returns the zero
`Connection` and a nil error. -/
theorem GetConnection_not_found_returns_zero :
    ((NewClient (stubHTTP (respond 404 bodyNotFound)) "").GetConnection "conn-404"
        (World.start ())).1 = .ok Connection.zero := by
  rfl

/-- C6 as stated fails: status 304 is not 2xx, and `DeleteConnection` returns
a nil error on it. -/
theorem DeleteConnection_304_returns_nil :
    ¬ (200 ≤ (respond 304 bodyEmpty).StatusCode ∧ (respond 304 bodyEmpty).StatusCode < 300) ∧
    ((NewClient (stubHTTP (respond 304 bodyEmpty)) "").DeleteConnection "conn-1"
        (World.start ())).1 = none := by
  refine ⟨by decide, rfl⟩

/-- C6, amended: for every platform response to `DELETE /connections/{id}`,
`DeleteConnection` returns no error when the status code is below 400, which
holds for every 2xx code, and for every status code of 400 or above it fails
with the error `delete failed: ` whose detail is exactly the body text. -/
theorem DeleteConnection_status_decides {σ : Type} (c : ConnectorPlatformClient σ)
    (connectionID : String) (w : World σ) (resp : HttpResponse)
    (ha : DeleteAnswered c connectionID w resp) :
    (resp.StatusCode < 400 → (c.DeleteConnection connectionID w).1 = none) ∧
    (200 ≤ resp.StatusCode ∧ resp.StatusCode < 300 →
      (c.DeleteConnection connectionID w).1 = none) ∧
    (400 ≤ resp.StatusCode →
      ∃ err, (c.DeleteConnection connectionID w).1 = some err ∧
        err = .errorf "delete failed: " resp.Body.bytes.text ∧
        err.Error = "delete failed: " ++ resp.Body.bytes.text) := by
  have hres := DeleteConnection_of_answer c connectionID w resp ha
  refine ⟨?_, ?_, ?_⟩
  · intro hlt
    rw [hres, if_neg (by omega)]
  · intro h2xx
    rw [hres, if_neg (by omega)]
  · intro hge
    refine ⟨_, ?_, rfl, rfl⟩
    rw [hres, if_pos (by omega)]

/-- Witness of C6, amended: a 404 with the body
`{"error":"connection not found"}` fails with `delete failed: ` and that body. -/
theorem DeleteConnection_status_decides_witness :
    ∃ err, ((NewClient (stubHTTP (respond 404 bodyNotFound)) "").DeleteConnection "conn-1"
        (World.start ())).1 = some err ∧
      err = .errorf "delete failed: " bodyNotFound.text ∧
      err.Error = "delete failed: " ++ bodyNotFound.text :=
  (DeleteConnection_status_decides (NewClient (stubHTTP (respond 404 bodyNotFound)) "") "conn-1"
    (World.start ()) (respond 404 bodyNotFound) ⟨_, rfl, rfl⟩).2.2 (by decide)

/-- C7 as stated fails: against a platform that deletes the connection on the
first call (204) and reports it as not found on the second (404), the first
`DeleteConnection` returns nil and the second fails with `delete failed: `. -/
theorem DeleteConnection_second_call_fails :
    ((NewClient deletingPlatform "").DeleteConnection "conn-1"
        (World.start ["http://localhost:5000/api/v1/connections/conn-1"])).1 = none ∧
    ((NewClient deletingPlatform "").DeleteConnection "conn-1"
        ((NewClient deletingPlatform "").DeleteConnection "conn-1"
          (World.start ["http://localhost:5000/api/v1/connections/conn-1"])).2).1 =
      some (.errorf "delete failed: " bodyNotFound.text) := by
  refine ⟨by rfl, by rfl⟩

/-- C7, amended: for every connection id, two consecutive `DeleteConnection`
calls both return no error when the platform answers both with a status code
below 400; a second call that the platform answers with a status code of 400
or above, as for a connection reported as not found, fails with
`delete failed: ` and the body text, also when the first call returned no error. -/
theorem DeleteConnection_twice {σ : Type} (c : ConnectorPlatformClient σ)
    (connectionID : String) (w : World σ) (resp1 resp2 : HttpResponse)
    (ha1 : DeleteAnswered c connectionID w resp1)
    (ha2 : DeleteAnswered c connectionID (c.DeleteConnection connectionID w).2 resp2) :
    (resp1.StatusCode < 400 → resp2.StatusCode < 400 →
      (c.DeleteConnection connectionID w).1 = none ∧
      (c.DeleteConnection connectionID (c.DeleteConnection connectionID w).2).1 = none) ∧
    (resp1.StatusCode < 400 → 400 ≤ resp2.StatusCode →
      (c.DeleteConnection connectionID w).1 = none ∧
      (c.DeleteConnection connectionID (c.DeleteConnection connectionID w).2).1 =
        some (.errorf "delete failed: " resp2.Body.bytes.text)) := by
  have h1 := DeleteConnection_of_answer c connectionID w resp1 ha1
  have h2 := DeleteConnection_of_answer c connectionID (c.DeleteConnection connectionID w).2 resp2 ha2
  refine ⟨?_, ?_⟩
  · intro hlt1 hlt2
    rw [h1, h2, if_neg (by omega), if_neg (by omega)]
    exact ⟨rfl, rfl⟩
  · intro hlt1 hge2
    rw [h1, h2, if_neg (by omega), if_pos (by omega)]
    exact ⟨rfl, rfl⟩

/-- Witness of C7, amended: against a platform that answers every request
with 204, both calls return no error. -/
theorem DeleteConnection_twice_witness :
    ((NewClient (stubHTTP (respond 204 bodyEmpty)) "").DeleteConnection "conn-1"
        (World.start ())).1 = none ∧
    ((NewClient (stubHTTP (respond 204 bodyEmpty)) "").DeleteConnection "conn-1"
        ((NewClient (stubHTTP (respond 204 bodyEmpty)) "").DeleteConnection "conn-1"
          (World.start ())).2).1 = none :=
  (DeleteConnection_twice (NewClient (stubHTTP (respond 204 bodyEmpty)) "") "conn-1"
    (World.start ()) (respond 204 bodyEmpty) (respond 204 bodyEmpty)
    ⟨_, rfl, rfl⟩ ⟨_, rfl, rfl⟩).1 (by decide) (by decide)

/-- C8, the code at the failing input: the platform redeems the code `abc` on
the first completion (200, `{"status":"active"}`) and rejects its replay
(400, `{"error":"invalid_grant"}`); the second `CompleteOAuth` with the same
code returns the error object as its result mapping, with a nil error. -/
theorem CompleteOAuth_replay_returns_mapping :
    ((NewClient oauthPlatform "").CompleteOAuth "conn-1" "abc" "https://app.example/cb"
        (World.start [])).1 = .ok (some [("status", GoVal.string "active")]) ∧
    ((NewClient oauthPlatform "").CompleteOAuth "conn-1" "abc" "https://app.example/cb"
        ((NewClient oauthPlatform "").CompleteOAuth "conn-1" "abc" "https://app.example/cb"
          (World.start [])).2).1 = .ok (some [("error", GoVal.string "invalid_grant")]) := by
  refine ⟨by rfl, by rfl⟩

/-- C10 as stated fails at the empty URL: `NewClient("")` takes the default
`http://localhost:5000`, `NewBaseConnector(id, {"platform_url": ""})` keeps
the empty string. -/
theorem PlatformURL_differs_on_empty_string :
    (NewClient (stubHTTP (respond 200 bodyEmpty)) "").PlatformURL = "http://localhost:5000" ∧
    (NewBaseConnector "conn-1" (some [("platform_url", GoVal.string "")])).PlatformURL = "" ∧
    (NewClient (stubHTTP (respond 200 bodyEmpty)) "").PlatformURL ≠
      (NewBaseConnector "conn-1" (some [("platform_url", GoVal.string "")])).PlatformURL := by
  refine ⟨by rfl, by rfl, by decide⟩

/-- C10, amended: for every string `u` other than the empty string,
`NewClient(u).PlatformURL` equals `NewBaseConnector(id, config).PlatformURL`
for every `config` whose `platform_url` is the string `u`, and both are `u`;
`NewClient("")` takes the default `http://localhost:5000`, and so does
`NewBaseConnector` when the key `platform_url` is absent or not a string. -/
theorem PlatformURL_resolution {σ : Type} (http : HTTPClient σ) (connectionID : String) :
    (∀ (u : String) (config : GoMap), u ≠ "" → config.index "platform_url" = .string u →
      (NewClient http u).PlatformURL = (NewBaseConnector connectionID config).PlatformURL ∧
      (NewClient http u).PlatformURL = u) ∧
    (∀ u : String, u ≠ "" →
      (NewClient http u).PlatformURL =
        (NewBaseConnector connectionID (some [("platform_url", .string u)])).PlatformURL) ∧
    (NewClient http "").PlatformURL = "http://localhost:5000" ∧
    (∀ config : GoMap, (∀ s, config.index "platform_url" ≠ .string s) →
      (NewBaseConnector connectionID config).PlatformURL = "http://localhost:5000") ∧
    (NewBaseConnector connectionID none).PlatformURL = "http://localhost:5000" := by
  have key : ∀ (u : String) (config : GoMap), u ≠ "" → config.index "platform_url" = .string u →
      (NewClient http u).PlatformURL = (NewBaseConnector connectionID config).PlatformURL ∧
      (NewClient http u).PlatformURL = u := by
    intro u config hu hcfg
    simp [NewClient, NewBaseConnector, hcfg, GoVal.assertString, hu]
  refine ⟨key, ?_, ?_, ?_, ?_⟩
  · intro u hu
    refine (key u (some [("platform_url", .string u)]) hu ?_).1
    simp [GoMap.index, mapGet]
  · simp [NewClient]
  · intro config hcfg
    unfold NewBaseConnector
    cases hidx : config.index "platform_url" with
    | string s => exact absurd hidx (hcfg s)
    | nil => rfl
    | bool b => rfl
    | float64 n => rfl
    | slice xs => rfl
    | map ms => rfl
    | unsupported => rfl
  · rfl

/-- Witness of C10, amended: for `u = "https://platform.example"` both
constructors resolve the base URL to `u`. -/
theorem PlatformURL_resolution_witness :
    (NewClient (stubHTTP (respond 200 bodyEmpty)) "https://platform.example").PlatformURL =
      (NewBaseConnector "conn-1"
        (some [("platform_url", GoVal.string "https://platform.example")])).PlatformURL :=
  (PlatformURL_resolution (stubHTTP (respond 200 bodyEmpty)) "conn-1").2.1
    "https://platform.example" (by decide)

end ConnectorPlatform
